import Mathlib

/-!
Shallow embedding of the `toy-payments-engine` ledger core (`src/lib.rs`).

Modelling conventions:

* `rust_decimal::Decimal` is modelled as an exact integer (`Int`) bounded in
  magnitude by `Decimal::MAX = 79228162514264337593543950335` (the 96-bit
  mantissa bound).  The spec (§9) requires an exact decimal type with
  overflow-checked add/subtract; scale/rounding details of `rust_decimal`
  are abstracted away, overflow is `|value| > Dmax`.  `checked_add` /
  `checked_sub` return `none` exactly when the exact result leaves the
  domain, mirroring `Decimal::checked_add` / `Decimal::checked_sub`.
* The unchecked Decimal operators (`+=`, `-=`) used on the dispute, resolve
  and chargeback commit paths panic in Rust when the result leaves the
  domain; the model keeps the arithmetic total on `Int` and captures the
  panic condition separately in `Txs.panicsOn`.
* `HashMap<K, V>` is modelled as `Nat → Option V` with pointwise update
  (`upd`); client ids (`u16`) and transaction ids (`u32`) are modelled as
  `Nat` — they are only ever compared for equality.
* `Txs::process_tx(&mut self, tx) -> Result<(), Error>` becomes the pure
  function `Txs.process_tx : Txs → Tx → Except Error Unit × Txs`, returning
  both the result and the (possibly mutated) state: the Rust code can
  mutate state (creating a default account) even on an error path.
-/

namespace Toy

/-- Transaction identifier (`u32` in the source; only compared for equality). -/
abbrev Txid := Nat

/-- Client identifier (`u16` in the source; only compared for equality). -/
abbrev Cid := Nat

/-- Magnitude bound of the decimal domain: `Decimal::MAX` of `rust_decimal`. -/
def Dmax : Int := 79228162514264337593543950335

/-- Whether an exact value is representable in the decimal domain. -/
def inDomain (r : Int) : Bool := decide (-Dmax ≤ r ∧ r ≤ Dmax)

/-- Model of `Decimal::checked_add`: the exact sum, or `none` on overflow. -/
def checked_add (a b : Int) : Option Int :=
  if inDomain (a + b) then some (a + b) else none

/-- Model of `Decimal::checked_sub`: the exact difference, or `none` on overflow. -/
def checked_sub (a b : Int) : Option Int :=
  if inDomain (a - b) then some (a - b) else none

/-- Represents the kind of transactions that can be processed (`TxKind`). -/
inductive TxKind where
  | Deposit
  | Withdrawal
  | Dispute
  | Resolve
  | ChargeBack
deriving DecidableEq

/-- Represents an incoming transaction (`Tx`). -/
structure Tx where
  kind : TxKind
  cid : Cid
  txid : Txid
  amount : Option Int
  disputed : Bool
deriving DecidableEq

/-- Creates a new incoming deposit transaction (`Tx::deposit`). -/
def Tx.deposit (cid : Cid) (txid : Txid) (amount : Int) : Tx :=
  ⟨.Deposit, cid, txid, some amount, false⟩

/-- Creates a new incoming withdrawal transaction (`Tx::withdrawal`). -/
def Tx.withdrawal (cid : Cid) (txid : Txid) (amount : Int) : Tx :=
  ⟨.Withdrawal, cid, txid, some amount, false⟩

/-- Creates a new incoming dispute transaction (`Tx::dispute`). -/
def Tx.dispute (cid : Cid) (txid : Txid) : Tx :=
  ⟨.Dispute, cid, txid, none, false⟩

/-- Creates a new incoming resolve transaction (`Tx::resolve`). -/
def Tx.resolve (cid : Cid) (txid : Txid) : Tx :=
  ⟨.Resolve, cid, txid, none, false⟩

/-- Creates a new incoming chargeback transaction (`Tx::charge_back`). -/
def Tx.charge_back (cid : Cid) (txid : Txid) : Tx :=
  ⟨.ChargeBack, cid, txid, none, false⟩

/-- Represents the state of a given client's account (`Account`). -/
structure Account where
  available : Int
  held : Int
  locked : Bool
deriving DecidableEq

/-- The account produced by `Account::default()`: zero balances, unlocked. -/
def Account.default : Account := ⟨0, 0, false⟩

/-- Represents the kind of errors returned by `Txs::process_tx` (`Error`). -/
inductive Error where
  | MathError
  | InsuffienctFunds
  | TxAlreadyExists
  | TxNotFound
  | CidMismatch
  | TxAlreadyDisputed
  | TxNotDisputed
  | TxMustBeDeposit
  | AccountIsLocked
  | InvalidTx
deriving DecidableEq

deriving instance DecidableEq for Except

/-- Pointwise map update, modelling `HashMap` insertion. -/
def upd {α : Type} (m : Nat → Option α) (k : Nat) (v : α) : Nat → Option α :=
  fun x => if x = k then some v else m x

/-- Represents a collection of incoming transactions to be processed (`Txs`). -/
structure Txs where
  txs : Txid → Option Tx
  accounts : Cid → Option Account

/-- Creates an empty `Txs` (`Txs::new`). -/
def Txs.new : Txs := ⟨fun _ => none, fun _ => none⟩

/-- Model of `self.accounts.entry(cid).or_default()`: the possibly-extended
accounts map together with the entry's current value. -/
def entryOrDefault (m : Cid → Option Account) (c : Cid) :
    (Cid → Option Account) × Account :=
  match m c with
  | some a => (m, a)
  | none => (upd m c Account.default, Account.default)

/-- Model of `Txs::process_operation` (the shared deposit/withdrawal path):
checked arithmetic on `available`, the negativity check, the duplicate
transaction-id check, the `new_available + held` overflow re-check, and the
commit that stores the record and writes back `available`. -/
def Txs.process_operation (σ : Txs) (tx : Tx) (amount : Int)
    (checkedOp : Int → Int → Option Int) : Except Error Unit × Txs :=
  let acc := entryOrDefault σ.accounts tx.cid
  let σ1 : Txs := ⟨σ.txs, acc.1⟩
  match checkedOp acc.2.available amount with
  | none => (.error .MathError, σ1)
  | some newAvailable =>
    if newAvailable < 0 then (.error .InsuffienctFunds, σ1)
    else
      match σ.txs tx.txid with
      | some _ => (.error .TxAlreadyExists, σ1)
      | none =>
        if (checked_add newAvailable acc.2.held).isSome then
          (.ok (), ⟨upd σ.txs tx.txid tx,
                    upd acc.1 tx.cid { acc.2 with available := newAvailable }⟩)
        else (.error .MathError, σ1)

/-- Model of `Txs::with_tx` (the shared dispute/resolve/chargeback path):
creates the account entry, looks up the referenced record, checks the client
ids match, and runs the kind-specific body.  The body returns the updated
record and account on success; the source's closures mutate only on their
success branch, so an error leaves both untouched. -/
def Txs.with_tx (σ : Txs) (tx : Tx)
    (op : Tx → Account → Except Error (Tx × Account)) : Except Error Unit × Txs :=
  let acc := entryOrDefault σ.accounts tx.cid
  let σ1 : Txs := ⟨σ.txs, acc.1⟩
  match σ.txs tx.txid with
  | none => (.error .TxNotFound, σ1)
  | some refTx =>
    if refTx.cid = tx.cid then
      match op refTx acc.2 with
      | .error e => (.error e, σ1)
      | .ok r => (.ok (), ⟨upd σ.txs tx.txid r.1, upd acc.1 tx.cid r.2⟩)
    else (.error .CidMismatch, σ1)

/-- Body of the closure passed to `with_tx` on the `Dispute` arm of
`Txs::process_tx`: reject if already disputed or not a deposit, otherwise
move the amount from `available` to `held` and mark the record disputed.
Stored records always carry an amount (they are inserted only by
`process_operation`), so the source's `ref_tx.amount.unwrap()` is rendered
as `Option.getD 0`. -/
def disputeOp (refTx : Tx) (account : Account) : Except Error (Tx × Account) :=
  if !refTx.disputed then
    if refTx.kind = .Deposit then
      .ok ({ refTx with disputed := true },
           { account with
               available := account.available - refTx.amount.getD 0,
               held := account.held + refTx.amount.getD 0 })
    else .error .TxMustBeDeposit
  else .error .TxAlreadyDisputed

/-- Body of the closure passed to `with_tx` on the `Resolve` arm of
`Txs::process_tx`: reject if not disputed, otherwise move the amount from
`held` back to `available` and clear the disputed flag. -/
def resolveOp (refTx : Tx) (account : Account) : Except Error (Tx × Account) :=
  if refTx.disputed then
    .ok ({ refTx with disputed := false },
         { account with
             available := account.available + refTx.amount.getD 0,
             held := account.held - refTx.amount.getD 0 })
  else .error .TxNotDisputed

/-- Body of the closure passed to `with_tx` on the `ChargeBack` arm of
`Txs::process_tx`: reject if not disputed, otherwise remove the amount from
`held`, lock the account and clear the disputed flag. -/
def chargeBackOp (refTx : Tx) (account : Account) : Except Error (Tx × Account) :=
  if refTx.disputed then
    .ok ({ refTx with disputed := false },
         { account with
             held := account.held - refTx.amount.getD 0,
             locked := true })
  else .error .TxNotDisputed

/-- Model of `Txs::process_tx`: the locked-account check followed by the
dispatch on `(kind, amount)`. -/
def Txs.process_tx (σ : Txs) (tx : Tx) : Except Error Unit × Txs :=
  if (σ.accounts tx.cid).elim false Account.locked then
    (.error .AccountIsLocked, σ)
  else
    match tx.kind, tx.amount with
    | .Deposit, some amount => σ.process_operation tx amount checked_add
    | .Withdrawal, some amount => σ.process_operation tx amount checked_sub
    | .Dispute, none => σ.with_tx tx disputeOp
    | .Resolve, none => σ.with_tx tx resolveOp
    | .ChargeBack, none => σ.with_tx tx chargeBackOp
    | _, _ => (.error .InvalidTx, σ)

/-- Returns an account if exists, otherwise `none` (`Txs::get`). -/
def Txs.get (σ : Txs) (c : Cid) : Option Account := σ.accounts c

/-- The `available` balance shown for a client (`0` if no account exists;
an account is created with zero balances). -/
def Txs.availOf (σ : Txs) (c : Cid) : Int := (σ.accounts c).elim 0 Account.available

/-- The `held` balance shown for a client (`0` if no account exists). -/
def Txs.heldOf (σ : Txs) (c : Cid) : Int := (σ.accounts c).elim 0 Account.held

/-- Whether the client's account exists and is locked, exactly the source's
`self.accounts.get(&tx.cid).map_or(false, |account| account.locked)`. -/
def Txs.lockedOf (σ : Txs) (c : Cid) : Bool := (σ.accounts c).elim false Account.locked

/-- Replays a list of transactions from a state, keeping only the final state. -/
def replay (σ : Txs) (l : List Tx) : Txs :=
  l.foldl (fun σ t => (σ.process_tx t).2) σ

/-- Whether every transaction in the list is accepted (returns `Ok`). -/
def processAllOk (σ : Txs) : List Tx → Bool
  | [] => true
  | t :: rest =>
    match σ.process_tx t with
    | (.ok _, σ2) => processAllOk σ2 rest
    | (.error _, _) => false

/-- Sum of the amounts of the accepted transactions of kind `k` belonging to
client `c` in the list, replayed from `σ`. -/
def sumAccepted (k : TxKind) (c : Cid) (σ : Txs) : List Tx → Int
  | [] => 0
  | t :: rest =>
    (if (σ.process_tx t).1 = .ok () ∧ t.cid = c ∧ t.kind = k
     then t.amount.getD 0 else 0)
      + sumAccepted k c (σ.process_tx t).2 rest

/-- Panic condition of the Rust code at state `σ` on transaction `tx`: the
dispute/resolve/chargeback commit paths apply the *unchecked* Decimal
operators `-=`/`+=` (which panic when the result leaves the decimal domain)
and `ref_tx.amount.unwrap()` (which panics on `None`).  This predicate is
true exactly when the commit path is reached and one of those operations
panics; all other paths of `process_tx` use checked arithmetic and are
total. -/
def Txs.panicsOn (σ : Txs) (tx : Tx) : Bool :=
  if (σ.accounts tx.cid).elim false Account.locked then false
  else
    match tx.kind, tx.amount with
    | .Dispute, none =>
      match σ.txs tx.txid with
      | none => false
      | some refTx =>
        if refTx.cid = tx.cid ∧ refTx.disputed = false ∧ refTx.kind = .Deposit then
          match refTx.amount with
          | none => true
          | some a =>
            let acct := (entryOrDefault σ.accounts tx.cid).2
            !inDomain (acct.available - a) || !inDomain (acct.held + a)
        else false
    | .Resolve, none =>
      match σ.txs tx.txid with
      | none => false
      | some refTx =>
        if refTx.cid = tx.cid ∧ refTx.disputed = true then
          match refTx.amount with
          | none => true
          | some a =>
            let acct := (entryOrDefault σ.accounts tx.cid).2
            !inDomain (acct.available + a) || !inDomain (acct.held - a)
        else false
    | .ChargeBack, none =>
      match σ.txs tx.txid with
      | none => false
      | some refTx =>
        if refTx.cid = tx.cid ∧ refTx.disputed = true then
          match refTx.amount with
          | none => true
          | some a =>
            let acct := (entryOrDefault σ.accounts tx.cid).2
            !inDomain (acct.held - a)
        else false
    | _, _ => false

/-- States reachable from the empty ledger through the public API: every
`Tx` reaching `process_tx` is built by one of the five constructors or by
deserialization, all of which set `disputed := false` (the field is private
and `#[serde(skip_deserializing)]`). -/
inductive Reachable : Txs → Prop where
  | init : Reachable Txs.new
  | step (σ : Txs) (tx : Tx) : Reachable σ → tx.disputed = false →
      Reachable (σ.process_tx tx).2

/-! ### Basic lemmas about the map and decimal helpers -/

theorem upd_apply_self {α : Type} (m : Nat → Option α) (k : Nat) (v : α) :
    upd m k v k = some v := by
  simp [upd]

theorem upd_apply_ne {α : Type} (m : Nat → Option α) (k : Nat) (v : α)
    {x : Nat} (h : x ≠ k) : upd m k v x = m x := by
  simp [upd, h]

theorem checked_add_some {a b v : Int} (h : checked_add a b = some v) :
    v = a + b := by
  unfold checked_add at h
  split at h
  · exact (Option.some.injEq _ _ ▸ h).symm
  · exact absurd h (by simp)

theorem checked_sub_some {a b v : Int} (h : checked_sub a b = some v) :
    v = a - b := by
  unfold checked_sub at h
  split at h
  · exact (Option.some.injEq _ _ ▸ h).symm
  · exact absurd h (by simp)

theorem checked_add_inDomain {a b v : Int} (h : checked_add a b = some v) :
    inDomain v = true := by
  unfold checked_add at h
  split at h
  · cases h
    assumption
  · exact absurd h (by simp)

theorem entry_fst_cases (m : Cid → Option Account) (c : Cid) :
    (entryOrDefault m c).1 = m ∨
      (m c = none ∧ (entryOrDefault m c).1 = upd m c Account.default) := by
  unfold entryOrDefault
  cases h : m c <;> simp [h]

theorem entry_fst_apply_ne (m : Cid → Option Account) (c : Cid) {x : Cid}
    (h : x ≠ c) : (entryOrDefault m c).1 x = m x := by
  rcases entry_fst_cases m c with h1 | ⟨_, h1⟩ <;> rw [h1]
  exact upd_apply_ne m c Account.default h

theorem entry_snd (m : Cid → Option Account) (c : Cid) :
    (entryOrDefault m c).2 = (m c).getD Account.default := by
  unfold entryOrDefault
  cases h : m c <;> simp [h]

theorem entry_snd_available (m : Cid → Option Account) (c : Cid) :
    (entryOrDefault m c).2.available = (m c).elim 0 Account.available := by
  rw [entry_snd]
  cases m c <;> simp [Account.default]

theorem entry_snd_held (m : Cid → Option Account) (c : Cid) :
    (entryOrDefault m c).2.held = (m c).elim 0 Account.held := by
  rw [entry_snd]
  cases m c <;> simp [Account.default]

theorem entry_snd_locked (m : Cid → Option Account) (c : Cid) :
    (entryOrDefault m c).2.locked = (m c).elim false Account.locked := by
  rw [entry_snd]
  cases m c <;> simp [Account.default]

theorem entry_fst_avail (m : Cid → Option Account) (c x : Cid) :
    ((entryOrDefault m c).1 x).elim 0 Account.available = (m x).elim 0 Account.available := by
  rcases entry_fst_cases m c with h1 | ⟨h0, h1⟩ <;> rw [h1]
  by_cases hx : x = c
  · subst hx
    rw [upd_apply_self, h0]
    simp [Account.default]
  · rw [upd_apply_ne m c Account.default hx]

theorem entry_fst_held (m : Cid → Option Account) (c x : Cid) :
    ((entryOrDefault m c).1 x).elim 0 Account.held = (m x).elim 0 Account.held := by
  rcases entry_fst_cases m c with h1 | ⟨h0, h1⟩ <;> rw [h1]
  by_cases hx : x = c
  · subst hx
    rw [upd_apply_self, h0]
    simp [Account.default]
  · rw [upd_apply_ne m c Account.default hx]

/-! ### Characterization of the kind-specific closure bodies -/

theorem disputeOp_ok {refTx : Tx} {account : Account} {r : Tx × Account}
    (h : disputeOp refTx account = .ok r) :
    refTx.disputed = false ∧ refTx.kind = .Deposit ∧
      r = ({ refTx with disputed := true },
           { account with
               available := account.available - refTx.amount.getD 0,
               held := account.held + refTx.amount.getD 0 }) := by
  unfold disputeOp at h
  split at h <;> (try split at h) <;> simp_all

theorem resolveOp_ok {refTx : Tx} {account : Account} {r : Tx × Account}
    (h : resolveOp refTx account = .ok r) :
    refTx.disputed = true ∧
      r = ({ refTx with disputed := false },
           { account with
               available := account.available + refTx.amount.getD 0,
               held := account.held - refTx.amount.getD 0 }) := by
  unfold resolveOp at h
  split at h <;> simp_all

theorem chargeBackOp_ok {refTx : Tx} {account : Account} {r : Tx × Account}
    (h : chargeBackOp refTx account = .ok r) :
    refTx.disputed = true ∧
      r = ({ refTx with disputed := false },
           { account with
               held := account.held - refTx.amount.getD 0,
               locked := true }) := by
  unfold chargeBackOp at h
  split at h <;> simp_all

/-! ### Result characterizations of the two shared paths -/

theorem with_tx_shape (σ : Txs) (tx : Tx)
    (op : Tx → Account → Except Error (Tx × Account)) :
    ((σ.with_tx tx op).1 = .ok () ∧
      ∃ refTx r, σ.txs tx.txid = some refTx ∧ refTx.cid = tx.cid ∧
        op refTx (entryOrDefault σ.accounts tx.cid).2 = .ok r ∧
        (σ.with_tx tx op).2.txs = upd σ.txs tx.txid r.1 ∧
        (σ.with_tx tx op).2.accounts =
          upd (entryOrDefault σ.accounts tx.cid).1 tx.cid r.2) ∨
    (∃ e, (σ.with_tx tx op).1 = .error e ∧
      (σ.with_tx tx op).2.txs = σ.txs ∧
      (σ.with_tx tx op).2.accounts = (entryOrDefault σ.accounts tx.cid).1) := by
  unfold Txs.with_tx
  repeat' split
  all_goals simp_all
  all_goals ((repeat' split) <;> simp_all)
  all_goals (rename_i r heq; exact ⟨r.1, r.2, rfl, rfl, rfl⟩)

theorem process_operation_shape (σ : Txs) (tx : Tx) (amount : Int)
    (cop : Int → Int → Option Int) :
    ((σ.process_operation tx amount cop).1 = .ok () ∧
      ∃ v, cop (entryOrDefault σ.accounts tx.cid).2.available amount = some v ∧
        ¬v < 0 ∧ σ.txs tx.txid = none ∧
        (checked_add v (entryOrDefault σ.accounts tx.cid).2.held).isSome = true ∧
        (σ.process_operation tx amount cop).2.txs = upd σ.txs tx.txid tx ∧
        (σ.process_operation tx amount cop).2.accounts =
          upd (entryOrDefault σ.accounts tx.cid).1 tx.cid
            { (entryOrDefault σ.accounts tx.cid).2 with available := v }) ∨
    (∃ e, (σ.process_operation tx amount cop).1 = .error e ∧
      (σ.process_operation tx amount cop).2.txs = σ.txs ∧
      (σ.process_operation tx amount cop).2.accounts =
        (entryOrDefault σ.accounts tx.cid).1) := by
  unfold Txs.process_operation
  repeat' split
  all_goals simp_all
  all_goals ((repeat' split) <;> simp_all)

/-! ### Shape of the state after an error -/

/-- Either the call succeeded, or the transaction-history map is unchanged
and the accounts map is unchanged except for the possible creation of a
default account for the transaction's client. -/
theorem process_tx_shape (σ : Txs) (tx : Tx) :
    (σ.process_tx tx).1 = .ok () ∨
      ((σ.process_tx tx).2.txs = σ.txs ∧
        ((σ.process_tx tx).2.accounts = σ.accounts ∨
          (σ.accounts tx.cid = none ∧
            (σ.process_tx tx).2.accounts = upd σ.accounts tx.cid Account.default))) := by
  unfold Txs.process_tx Txs.process_operation Txs.with_tx
  repeat' split
  all_goals simp_all
  all_goals
    (rcases entry_fst_cases σ.accounts tx.cid with h1 | ⟨h0, h1⟩ <;> simp_all <;>
      (repeat' split) <;> simp_all)

/-- On any error, the transaction-history map is unchanged and the accounts
map is unchanged except for the possible creation of a default account for
the transaction's client. -/
theorem process_tx_error_shape (σ : Txs) (tx : Tx) (e : Error)
    (h : (σ.process_tx tx).1 = .error e) :
    (σ.process_tx tx).2.txs = σ.txs ∧
      ((σ.process_tx tx).2.accounts = σ.accounts ∨
        (σ.accounts tx.cid = none ∧
          (σ.process_tx tx).2.accounts = upd σ.accounts tx.cid Account.default)) := by
  rcases process_tx_shape σ tx with h1 | h1
  · rw [h1] at h
    exact absurd h (by simp)
  · exact h1

/-! ### Accounts of other clients are never touched -/

theorem process_operation_accounts_ne (σ : Txs) (tx : Tx) (amount : Int)
    (cop : Int → Int → Option Int) {c : Cid} (hc : c ≠ tx.cid) :
    (σ.process_operation tx amount cop).2.accounts c = σ.accounts c := by
  rcases process_operation_shape σ tx amount cop with
    ⟨_, v, _, _, _, _, _, h2⟩ | ⟨e, _, _, h2⟩ <;>
    rw [h2] <;>
    simp [upd_apply_ne _ _ _ hc, entry_fst_apply_ne _ _ hc]

theorem with_tx_accounts_ne (σ : Txs) (tx : Tx)
    (op : Tx → Account → Except Error (Tx × Account)) {c : Cid} (hc : c ≠ tx.cid) :
    (σ.with_tx tx op).2.accounts c = σ.accounts c := by
  rcases with_tx_shape σ tx op with
    ⟨_, refTx, r, _, _, _, _, h2⟩ | ⟨e, _, _, h2⟩ <;>
    rw [h2] <;>
    simp [upd_apply_ne _ _ _ hc, entry_fst_apply_ne _ _ hc]

/-- A transaction never changes (or creates) the account of another client. -/
theorem process_tx_accounts_ne (σ : Txs) (tx : Tx) {c : Cid} (hc : c ≠ tx.cid) :
    (σ.process_tx tx).2.accounts c = σ.accounts c := by
  unfold Txs.process_tx
  split
  · rfl
  · split <;>
      first
        | rfl
        | exact process_operation_accounts_ne σ tx _ _ hc
        | exact with_tx_accounts_ne σ tx _ hc

/-- A transaction on a locked account is rejected immediately and the whole
state is returned unchanged. -/
theorem locked_rejects (σ : Txs) (tx : Tx) (h : σ.lockedOf tx.cid = true) :
    σ.process_tx tx = (.error .AccountIsLocked, σ) := by
  unfold Txs.lockedOf at h
  unfold Txs.process_tx
  simp [h]

/-! ### The disputed-records invariant -/

/-- One step preserves the invariant that only stored deposits can be
marked disputed. -/
theorem disputed_step (σ : Txs) (tx : Tx) (hd : tx.disputed = false)
    (inv : ∀ t r, σ.txs t = some r → r.disputed = true → r.kind = .Deposit) :
    ∀ t r, (σ.process_tx tx).2.txs t = some r → r.disputed = true → r.kind = .Deposit := by
  intro t r hr hdisp
  revert hr
  unfold Txs.process_tx
  split
  · intro hr
    exact inv t r hr hdisp
  · split
    case h_1 _ amount _ _ =>
      intro hr
      rcases process_operation_shape σ tx amount checked_add with
        ⟨_, v, _, _, _, _, h2, _⟩ | ⟨e, _, h2, _⟩ <;> rw [h2] at hr
      · by_cases ht : t = tx.txid
        · subst ht
          rw [upd_apply_self] at hr
          cases hr
          rw [hd] at hdisp
          exact absurd hdisp (by simp)
        · rw [upd_apply_ne _ _ _ ht] at hr
          exact inv t r hr hdisp
      · exact inv t r hr hdisp
    case h_2 _ amount _ _ =>
      intro hr
      rcases process_operation_shape σ tx amount checked_sub with
        ⟨_, v, _, _, _, _, h2, _⟩ | ⟨e, _, h2, _⟩ <;> rw [h2] at hr
      · by_cases ht : t = tx.txid
        · subst ht
          rw [upd_apply_self] at hr
          cases hr
          rw [hd] at hdisp
          exact absurd hdisp (by simp)
        · rw [upd_apply_ne _ _ _ ht] at hr
          exact inv t r hr hdisp
      · exact inv t r hr hdisp
    case h_3 =>
      intro hr
      rcases with_tx_shape σ tx disputeOp with
        ⟨_, refTx, rr, hfound, hcid, hop, h2, _⟩ | ⟨e, _, h2, _⟩ <;> rw [h2] at hr
      · obtain ⟨hnd, hkind, hrr⟩ := disputeOp_ok hop
        by_cases ht : t = tx.txid
        · subst ht
          rw [upd_apply_self] at hr
          cases hr
          rw [hrr]
          exact hkind
        · rw [upd_apply_ne _ _ _ ht] at hr
          exact inv t r hr hdisp
      · exact inv t r hr hdisp
    case h_4 =>
      intro hr
      rcases with_tx_shape σ tx resolveOp with
        ⟨_, refTx, rr, hfound, hcid, hop, h2, _⟩ | ⟨e, _, h2, _⟩ <;> rw [h2] at hr
      · obtain ⟨hwas, hrr⟩ := resolveOp_ok hop
        by_cases ht : t = tx.txid
        · subst ht
          rw [upd_apply_self] at hr
          cases hr
          rw [hrr] at hdisp
          exact absurd hdisp (by simp)
        · rw [upd_apply_ne _ _ _ ht] at hr
          exact inv t r hr hdisp
      · exact inv t r hr hdisp
    case h_5 =>
      intro hr
      rcases with_tx_shape σ tx chargeBackOp with
        ⟨_, refTx, rr, hfound, hcid, hop, h2, _⟩ | ⟨e, _, h2, _⟩ <;> rw [h2] at hr
      · obtain ⟨hwas, hrr⟩ := chargeBackOp_ok hop
        by_cases ht : t = tx.txid
        · subst ht
          rw [upd_apply_self] at hr
          cases hr
          rw [hrr] at hdisp
          exact absurd hdisp (by simp)
        · rw [upd_apply_ne _ _ _ ht] at hr
          exact inv t r hr hdisp
      · exact inv t r hr hdisp
    case h_6 =>
      intro hr
      exact inv t r hr hdisp

/-- In any reachable state, a stored record marked disputed is a deposit. -/
theorem reachable_disputed_deposit {σ : Txs} (h : Reachable σ) :
    ∀ t r, σ.txs t = some r → r.disputed = true → r.kind = .Deposit := by
  induction h with
  | init =>
    intro t r hr
    exact absurd hr (by simp [Txs.new])
  | step σ0 tx _ hd ih =>
    exact disputed_step σ0 tx hd ih

/-! ### Conservation of `available` under deposits and withdrawals -/

/-- Effect of a single deposit or withdrawal on a client's `available`
balance: `+amount` for an accepted deposit of the client, `-amount` for an
accepted withdrawal of the client, `0` otherwise. -/
theorem avail_step (σ : Txs) (t : Tx) (c : Cid)
    (hk : t.kind = .Deposit ∨ t.kind = .Withdrawal) :
    (σ.process_tx t).2.availOf c =
      σ.availOf c
        + (if (σ.process_tx t).1 = .ok () ∧ t.cid = c ∧ t.kind = .Deposit
           then t.amount.getD 0 else 0)
        - (if (σ.process_tx t).1 = .ok () ∧ t.cid = c ∧ t.kind = .Withdrawal
           then t.amount.getD 0 else 0) := by
  unfold Txs.process_tx
  split
  · simp [Txs.availOf]
  · split
    case h_1 _ _ amount heq1 heq2 =>
      rcases process_operation_shape σ t amount checked_add with
        ⟨h1, v, hv, hneg, hfresh, hdom, htxs, hacc⟩ | ⟨e, h1, htxs, hacc⟩
      · have hval := checked_add_some hv
        by_cases hc : t.cid = c
        · subst hc
          simp only [Txs.availOf, hacc, upd_apply_self, h1, heq1, heq2, Option.elim]
          rw [entry_snd_available] at hval
          simp [hval, Txs.availOf, Option.elim]
        · simp only [Txs.availOf, hacc, upd_apply_ne _ _ _ (fun hx => hc hx.symm),
            entry_fst_avail, h1, heq1, heq2]
          simp [hc]
      · simp only [Txs.availOf, hacc, entry_fst_avail, h1]
        simp
    case h_2 _ _ amount heq1 heq2 =>
      rcases process_operation_shape σ t amount checked_sub with
        ⟨h1, v, hv, hneg, hfresh, hdom, htxs, hacc⟩ | ⟨e, h1, htxs, hacc⟩
      · have hval := checked_sub_some hv
        by_cases hc : t.cid = c
        · subst hc
          simp only [Txs.availOf, hacc, upd_apply_self, h1, heq1, heq2, Option.elim]
          rw [entry_snd_available] at hval
          simp [hval, Txs.availOf, Option.elim]
        · simp only [Txs.availOf, hacc, upd_apply_ne _ _ _ (fun hx => hc hx.symm),
            entry_fst_avail, h1, heq1, heq2]
          simp [hc]
      · simp only [Txs.availOf, hacc, entry_fst_avail, h1]
        simp
    case h_3 _ _ heq1 heq2 => rcases hk with hk | hk <;> simp [heq1] at hk
    case h_4 _ _ heq1 heq2 => rcases hk with hk | hk <;> simp [heq1] at hk
    case h_5 _ _ heq1 heq2 => rcases hk with hk | hk <;> simp [heq1] at hk
    case h_6 => simp [Txs.availOf]

/-- Conservation over a list of deposits and withdrawals, from any state. -/
theorem conservation_general (l : List Tx) : ∀ (σ : Txs) (c : Cid),
    (∀ t ∈ l, t.kind = .Deposit ∨ t.kind = .Withdrawal) →
    (replay σ l).availOf c =
      σ.availOf c + (sumAccepted .Deposit c σ l - sumAccepted .Withdrawal c σ l) := by
  induction l with
  | nil =>
    intro σ c _
    simp [replay, sumAccepted]
  | cons t rest ih =>
    intro σ c hl
    have hk := hl t (by simp)
    have hrest : ∀ x ∈ rest, x.kind = .Deposit ∨ x.kind = .Withdrawal :=
      fun x hx => hl x (by simp [hx])
    have hstep := avail_step σ t c hk
    have hrepl : replay σ (t :: rest) = replay (σ.process_tx t).2 rest := by
      simp [replay]
    rw [hrepl, ih (σ.process_tx t).2 c hrest, hstep]
    rw [sumAccepted, sumAccepted]
    ring

/-! ### Further small helpers -/

theorem entryOrDefault_some {m : Cid → Option Account} {c : Cid} {a : Account}
    (h : m c = some a) : entryOrDefault m c = (m, a) := by
  unfold entryOrDefault
  rw [h]

/-- An error leaves every client's displayed balances unchanged (even when a
default account is created, its balances are the zeros a missing account
displays). -/
theorem error_balances (σ : Txs) (tx : Tx) (e : Error)
    (h : (σ.process_tx tx).1 = .error e) (c : Cid) :
    (σ.process_tx tx).2.availOf c = σ.availOf c ∧
      (σ.process_tx tx).2.heldOf c = σ.heldOf c := by
  obtain ⟨_, hacc⟩ := process_tx_error_shape σ tx e h
  rcases hacc with hacc | ⟨h0, hacc⟩
  · simp [Txs.availOf, Txs.heldOf, hacc]
  · by_cases hc : c = tx.cid
    · subst hc
      simp [Txs.availOf, Txs.heldOf, hacc, upd_apply_self, h0, Account.default]
    · simp [Txs.availOf, Txs.heldOf, hacc, upd_apply_ne _ _ _ hc]

/-! ### Claim theorems -/

/-- Claim C1, counterexample: a withdrawal from a fresh client id is rejected
with `InsuffienctFunds`, yet the accounts map is mutated — a default account
is created for client 1 where none existed (`entry(..).or_default()` runs
before the checks). -/
theorem C1_counterexample :
    (Txs.new.process_tx (Tx.withdrawal 1 1 1)).1 = .error .InsuffienctFunds ∧
      Txs.new.accounts 1 = none ∧
      (Txs.new.process_tx (Tx.withdrawal 1 1 1)).2.accounts 1 = some Account.default := by
  decide

/-- Claim C1, amended: if `process_tx` returns an error, the
transaction-history map (hence every stored record's `disputed` flag) is
unchanged, and the accounts map is unchanged except that a default account
(zero balances, unlocked) may be created for the transaction's client id
when that client had no account. -/
theorem C1_error_leaves_state (σ : Txs) (tx : Tx) (e : Error)
    (h : (σ.process_tx tx).1 = .error e) :
    (σ.process_tx tx).2.txs = σ.txs ∧
      ((σ.process_tx tx).2.accounts = σ.accounts ∨
        (σ.accounts tx.cid = none ∧
          (σ.process_tx tx).2.accounts = upd σ.accounts tx.cid Account.default)) :=
  process_tx_error_shape σ tx e h

/-- Witness for C1's amended theorem at a concrete input: a dispute of an
unknown transaction id on the empty ledger errors and leaves the history
untouched, creating only the default account. -/
theorem C1_witness :
    (Txs.new.process_tx (Tx.dispute 1 5)).2.txs = Txs.new.txs ∧
      ((Txs.new.process_tx (Tx.dispute 1 5)).2.accounts = Txs.new.accounts ∨
        (Txs.new.accounts (Tx.dispute 1 5).cid = none ∧
          (Txs.new.process_tx (Tx.dispute 1 5)).2.accounts =
            upd Txs.new.accounts (Tx.dispute 1 5).cid Account.default)) :=
  C1_error_leaves_state Txs.new (Tx.dispute 1 5) .TxNotFound (by decide)

/-- Claim C2, failing input: the four set-up transactions are all accepted
(each passes every check of the deposit/withdrawal/dispute paths), yet the
fifth transaction `Dispute(1, 3)` reaches the dispute commit path with
`held = Decimal::MAX` and a referenced amount of `Decimal::MAX`, so the
unchecked `held += amount` leaves the decimal domain: the Rust code panics
instead of returning a typed error. -/
theorem C2_panic_reachable :
    processAllOk Txs.new
        [Tx.deposit 1 1 Dmax, Tx.withdrawal 1 2 Dmax, Tx.deposit 1 3 Dmax,
          Tx.dispute 1 1] = true ∧
      (replay Txs.new
        [Tx.deposit 1 1 Dmax, Tx.withdrawal 1 2 Dmax, Tx.deposit 1 3 Dmax,
          Tx.dispute 1 1]).panicsOn (Tx.dispute 1 3) = true := by
  decide

/-- Claim C8: in any reachable ledger state, a stored record whose
`disputed` flag is true has kind `Deposit`: records are inserted with
`disputed = false` and the only operation that sets the flag checks
`ref_tx.kind == TxKind::Deposit` first. -/
theorem C8_disputed_only_deposits {σ : Txs} (h : Reachable σ) (t : Txid) (r : Tx)
    (hr : σ.txs t = some r) (hd : r.disputed = true) : r.kind = .Deposit :=
  reachable_disputed_deposit h t r hr hd

/-- Witness for C8 at a concrete reachable state: after a deposit and its
dispute, the stored record is disputed, and the theorem yields that its kind
is `Deposit`. -/
theorem C8_witness :
    (replay Txs.new [Tx.deposit 1 1 10, Tx.dispute 1 1]).txs 1 =
        some { Tx.deposit 1 1 10 with disputed := true } ∧
      ({ Tx.deposit 1 1 10 with disputed := true } : Tx).kind = .Deposit := by
  have h0 : Reachable Txs.new := .init
  have h1 := Reachable.step _ (Tx.deposit 1 1 10) h0 rfl
  have h2 := Reachable.step _ (Tx.dispute 1 1) h1 rfl
  exact ⟨by decide, C8_disputed_only_deposits h2 1 _ (by decide) (by decide)⟩

/-- Claim C6: in any reachable state, a dispute on an unlocked account that
references a stored record of the same client whose kind is not `Deposit`
is rejected with `TxMustBeDeposit` (never `TxAlreadyDisputed`: a stored
non-deposit is never marked disputed). -/
theorem C6_dispute_non_deposit {σ : Txs} (h : Reachable σ) (c : Cid) (t : Txid)
    (r : Tx) (hr : σ.txs t = some r) (hcid : r.cid = c) (hk : r.kind ≠ .Deposit)
    (hl : σ.lockedOf c = false) :
    (σ.process_tx (Tx.dispute c t)).1 = .error .TxMustBeDeposit := by
  have hnd : r.disputed = false := by
    by_contra hx
    exact hk (reachable_disputed_deposit h t r hr (by revert hx; cases r.disputed <;> simp))
  unfold Txs.lockedOf at hl
  simp [Txs.process_tx, Tx.dispute, hl, Txs.with_tx, hr, hcid, disputeOp, hnd, hk]

/-- Witness for C6 at a concrete reachable state: disputing a stored
withdrawal is answered with `TxMustBeDeposit`. -/
theorem C6_witness :
    ((replay Txs.new [Tx.deposit 1 1 20, Tx.withdrawal 1 2 10]).process_tx
        (Tx.dispute 1 2)).1 = .error .TxMustBeDeposit := by
  have h0 : Reachable Txs.new := .init
  have h1 := Reachable.step _ (Tx.deposit 1 1 20) h0 rfl
  have h2 := Reachable.step _ (Tx.withdrawal 1 2 10) h1 rfl
  exact C6_dispute_non_deposit h2 1 2 (Tx.withdrawal 1 2 10) (by decide) (by decide)
    (by decide) (by decide)

/-- Claim C3: chargeback finality.  An accepted chargeback locks the
account; once a client's account is locked, every transaction bearing that
client id is rejected with `AccountIsLocked` and the whole state is
returned unchanged, and no transaction whatsoever (any client) changes any
field of that account — in particular `locked` is never reset. -/
theorem C3_locked_finality (σ : Txs) (c : Cid) (a : Account)
    (ha : σ.accounts c = some a) (hl : a.locked = true) :
    (∀ tx : Tx, tx.cid = c → σ.process_tx tx = (.error .AccountIsLocked, σ)) ∧
      (∀ tx : Tx, (σ.process_tx tx).2.accounts c = some a) ∧
      (∀ (σ0 : Txs) (t : Txid),
        (σ0.process_tx (Tx.charge_back c t)).1 = .ok () →
        ∃ a2, (σ0.process_tx (Tx.charge_back c t)).2.accounts c = some a2 ∧
          a2.locked = true) := by
  refine ⟨?_, ?_, ?_⟩
  · intro tx hcid
    exact locked_rejects σ tx (by simp [Txs.lockedOf, hcid, ha, hl])
  · intro tx
    by_cases hcid : tx.cid = c
    · have hrej := locked_rejects σ tx (by simp [Txs.lockedOf, hcid, ha, hl])
      rw [hrej]
      exact ha
    · rw [process_tx_accounts_ne σ tx (fun hx => hcid hx.symm)]
      exact ha
  · intro σ0 t hok
    by_cases hl0 : σ0.lockedOf c = true
    · rw [locked_rejects σ0 (Tx.charge_back c t) hl0] at hok
      exact absurd hok (by simp)
    · simp only [Bool.not_eq_true] at hl0
      unfold Txs.lockedOf at hl0
      have hred : σ0.process_tx (Tx.charge_back c t) =
          σ0.with_tx (Tx.charge_back c t) chargeBackOp := by
        unfold Txs.process_tx
        simp [Tx.charge_back, hl0]
      rw [hred] at hok ⊢
      rcases with_tx_shape σ0 (Tx.charge_back c t) chargeBackOp with
        ⟨h1, refTx, rr, hfound, hcid2, hop, htxs, hacc⟩ | ⟨e, h1, _, _⟩
      · obtain ⟨hwas, hrr⟩ := chargeBackOp_ok hop
        refine ⟨rr.2, ?_, ?_⟩
        · rw [hacc]
          exact upd_apply_self _ _ _
        · rw [hrr]
      · rw [h1] at hok
        exact absurd hok (by simp)

/-- Witness for C3 at a concrete state: after deposit–dispute–chargeback the
account is `(0, 0, locked)`, and a following deposit is rejected with
`AccountIsLocked`, state unchanged. -/
theorem C3_witness :
    (replay Txs.new [Tx.deposit 1 1 10, Tx.dispute 1 1, Tx.charge_back 1 1]).process_tx
        (Tx.deposit 1 2 5) =
      (.error .AccountIsLocked,
        replay Txs.new [Tx.deposit 1 1 10, Tx.dispute 1 1, Tx.charge_back 1 1]) :=
  (C3_locked_finality _ 1 ⟨0, 0, true⟩ (by decide) rfl).1 (Tx.deposit 1 2 5) rfl

/-- Claim C5: conservation.  For a transaction list containing only deposits
and withdrawals, the final `available` balance of each client (zero when no
account exists) equals the sum of the client's accepted deposit amounts
minus the sum of the client's accepted withdrawal amounts. -/
theorem C5_conservation (l : List Tx) (c : Cid)
    (hl : ∀ t ∈ l, t.kind = .Deposit ∨ t.kind = .Withdrawal) :
    (replay Txs.new l).availOf c =
      sumAccepted .Deposit c Txs.new l - sumAccepted .Withdrawal c Txs.new l := by
  have h := conservation_general l Txs.new c hl
  rw [h]
  simp [Txs.availOf, Txs.new]

/-- Witness for C5 at a concrete list: a rejected withdrawal (insufficient
funds) and another client's deposit do not contribute to client 1's sum. -/
theorem C5_witness :
    (∀ t ∈ [Tx.deposit 1 1 20, Tx.withdrawal 1 2 5, Tx.withdrawal 1 3 100,
        Tx.deposit 2 4 7], t.kind = .Deposit ∨ t.kind = .Withdrawal) ∧
      (replay Txs.new [Tx.deposit 1 1 20, Tx.withdrawal 1 2 5, Tx.withdrawal 1 3 100,
          Tx.deposit 2 4 7]).availOf 1 =
        sumAccepted .Deposit 1 Txs.new [Tx.deposit 1 1 20, Tx.withdrawal 1 2 5,
            Tx.withdrawal 1 3 100, Tx.deposit 2 4 7]
          - sumAccepted .Withdrawal 1 Txs.new [Tx.deposit 1 1 20, Tx.withdrawal 1 2 5,
              Tx.withdrawal 1 3 100, Tx.deposit 2 4 7] :=
  ⟨by decide,
   C5_conservation [Tx.deposit 1 1 20, Tx.withdrawal 1 2 5, Tx.withdrawal 1 3 100,
     Tx.deposit 2 4 7] 1 (by decide)⟩

/-- Claim C9, counterexample to the parenthetical: at a reachable state with
a negative `available` balance (created by disputing a deposit after a
withdrawal), a deposit with a strictly positive amount is rejected with
`InsuffienctFunds` — so `available + amount < 0` is possible with a
positive deposit amount. -/
theorem C9_counterexample :
    ((replay Txs.new [Tx.deposit 1 1 20, Tx.withdrawal 1 2 15, Tx.dispute 1 1]).process_tx
        (Tx.deposit 1 3 10)).1 = .error .InsuffienctFunds ∧
      (0 : Int) < 10 ∧
      (replay Txs.new [Tx.deposit 1 1 20, Tx.withdrawal 1 2 15,
          Tx.dispute 1 1]).availOf 1 = -15 := by
  decide

/-- Claim C9, amended: a deposit on an unlocked account whose checked sum
`available + amount` exists but is negative is rejected with
`InsuffienctFunds` (this can happen when the amount is negative, or when
`available` is negative after a dispute), and the account's balances are
unchanged. -/
theorem C9_deposit_insufficient (σ : Txs) (c : Cid) (t : Txid) (A v : Int)
    (hl : σ.lockedOf c = false)
    (hv : checked_add (σ.availOf c) A = some v) (hneg : v < 0) :
    (σ.process_tx (Tx.deposit c t A)).1 = .error .InsuffienctFunds ∧
      (σ.process_tx (Tx.deposit c t A)).2.availOf c = σ.availOf c ∧
      (σ.process_tx (Tx.deposit c t A)).2.heldOf c = σ.heldOf c := by
  unfold Txs.lockedOf at hl
  unfold Txs.availOf at hv
  have hv' : checked_add (entryOrDefault σ.accounts c).2.available A = some v := by
    rw [entry_snd_available]
    exact hv
  have hres : (σ.process_tx (Tx.deposit c t A)).1 = .error .InsuffienctFunds := by
    simp [Txs.process_tx, Tx.deposit, hl, Txs.process_operation, hv', hneg]
  exact ⟨hres, error_balances σ (Tx.deposit c t A) .InsuffienctFunds hres c⟩

/-- Witness for C9's amended theorem: a negative deposit on the empty ledger
is rejected with `InsuffienctFunds`, balances unchanged. -/
theorem C9_witness :
    (Txs.new.process_tx (Tx.deposit 1 1 (-5))).1 = .error .InsuffienctFunds ∧
      (Txs.new.process_tx (Tx.deposit 1 1 (-5))).2.availOf 1 = Txs.new.availOf 1 ∧
      (Txs.new.process_tx (Tx.deposit 1 1 (-5))).2.heldOf 1 = Txs.new.heldOf 1 :=
  C9_deposit_insufficient Txs.new 1 1 (-5) (-5) (by decide) (by decide) (by decide)

/-- Claim C10, counterexample: at a reachable state with `available = -15`
(deposit 20, withdraw 15, dispute the deposit), a negative-amount withdrawal
meets every hypothesis of the claim — unlocked account, fresh transaction
id, both checked operations succeed — yet it is rejected with
`InsuffienctFunds` instead of being accepted. -/
theorem C10_counterexample :
    (replay Txs.new [Tx.deposit 1 1 20, Tx.withdrawal 1 2 15,
        Tx.dispute 1 1]).lockedOf 1 = false ∧
      (replay Txs.new [Tx.deposit 1 1 20, Tx.withdrawal 1 2 15,
          Tx.dispute 1 1]).txs 3 = none ∧
      (-10 : Int) < 0 ∧
      checked_sub ((replay Txs.new [Tx.deposit 1 1 20, Tx.withdrawal 1 2 15,
          Tx.dispute 1 1]).availOf 1) (-10) = some (-5) ∧
      (checked_add (-5) ((replay Txs.new [Tx.deposit 1 1 20, Tx.withdrawal 1 2 15,
          Tx.dispute 1 1]).heldOf 1)).isSome = true ∧
      ((replay Txs.new [Tx.deposit 1 1 20, Tx.withdrawal 1 2 15,
          Tx.dispute 1 1]).process_tx (Tx.withdrawal 1 3 (-10))).1 =
        .error .InsuffienctFunds := by
  decide

/-- Claim C10, amended: a negative-amount withdrawal on an unlocked account
with a fresh transaction id is accepted and increases `available` by the
amount's absolute value, provided additionally that the checked difference
`available - amount` is nonnegative (and the overflow re-check passes). -/
theorem C10_negative_withdrawal (σ : Txs) (c : Cid) (t : Txid) (A v : Int)
    (hl : σ.lockedOf c = false) (hA : A < 0) (hfresh : σ.txs t = none)
    (hv : checked_sub (σ.availOf c) A = some v) (hnn : 0 ≤ v)
    (hdom : (checked_add v (σ.heldOf c)).isSome = true) :
    (σ.process_tx (Tx.withdrawal c t A)).1 = .ok () ∧
      (σ.process_tx (Tx.withdrawal c t A)).2.availOf c = σ.availOf c - A := by
  unfold Txs.lockedOf at hl
  unfold Txs.availOf at hv
  unfold Txs.heldOf at hdom
  have hv' : checked_sub (entryOrDefault σ.accounts c).2.available A = some v := by
    rw [entry_snd_available]
    exact hv
  have hdom' : (checked_add v (entryOrDefault σ.accounts c).2.held).isSome = true := by
    rw [entry_snd_held]
    exact hdom
  have hnlt : ¬v < 0 := not_lt.mpr hnn
  have hval := checked_sub_some hv
  have hred : σ.process_tx (Tx.withdrawal c t A) =
      σ.process_operation (Tx.withdrawal c t A) A checked_sub := by
    unfold Txs.process_tx
    simp [Tx.withdrawal, hl]
  have hok : (σ.process_operation (Tx.withdrawal c t A) A checked_sub).1 = .ok () := by
    simp [Txs.process_operation, Tx.withdrawal, hv', hnlt, hfresh, hdom']
  rw [hred]
  refine ⟨hok, ?_⟩
  rcases process_operation_shape σ (Tx.withdrawal c t A) A checked_sub with
    ⟨h1, w, hw, hwneg, _, _, htxs, hacc⟩ | ⟨e, h1, _, _⟩
  · simp only [Tx.withdrawal] at hw hacc
    rw [hv'] at hw
    have hwv : w = v := by
      injection hw with hx
      exact hx.symm
    subst hwv
    unfold Txs.availOf
    simp only [Tx.withdrawal]
    rw [hacc, upd_apply_self]
    simp [Option.elim, hval]
  · rw [h1] at hok
    exact absurd hok (by simp)

/-- Witness for C10's amended theorem: withdrawing `-5` from an account with
`available = 20` is accepted and yields `available = 25`. -/
theorem C10_witness :
    ((replay Txs.new [Tx.deposit 1 1 20]).process_tx (Tx.withdrawal 1 2 (-5))).1 = .ok () ∧
      ((replay Txs.new [Tx.deposit 1 1 20]).process_tx
          (Tx.withdrawal 1 2 (-5))).2.availOf 1 =
        (replay Txs.new [Tx.deposit 1 1 20]).availOf 1 - (-5) :=
  C10_negative_withdrawal _ 1 2 (-5) 25 (by decide) (by decide) (by decide) (by decide)
    (by decide) (by decide)

/-- Claim C7, counterexample to its second part: at a reachable state with
`available = Dmax - 1` and `held = -Dmax` (via disputing a negative
deposit), a deposit of `-Dmax` has a fresh transaction id and
`newAvailable + held` overflows, yet the result is `InsuffienctFunds`
(because `newAvailable = -1 < 0` is checked first), not `MathError`. -/
theorem C7_counterexample :
    (replay Txs.new [Tx.deposit 1 1 Dmax, Tx.deposit 1 2 (-Dmax), Tx.dispute 1 2,
        Tx.withdrawal 1 3 1]).lockedOf 1 = false ∧
      (replay Txs.new [Tx.deposit 1 1 Dmax, Tx.deposit 1 2 (-Dmax), Tx.dispute 1 2,
          Tx.withdrawal 1 3 1]).txs 4 = none ∧
      checked_add ((replay Txs.new [Tx.deposit 1 1 Dmax, Tx.deposit 1 2 (-Dmax),
          Tx.dispute 1 2, Tx.withdrawal 1 3 1]).availOf 1) (-Dmax) = some (-1) ∧
      checked_add (-1) ((replay Txs.new [Tx.deposit 1 1 Dmax, Tx.deposit 1 2 (-Dmax),
          Tx.dispute 1 2, Tx.withdrawal 1 3 1]).heldOf 1) = none ∧
      ((replay Txs.new [Tx.deposit 1 1 Dmax, Tx.deposit 1 2 (-Dmax), Tx.dispute 1 2,
          Tx.withdrawal 1 3 1]).process_tx (Tx.deposit 1 4 (-Dmax))).1 =
        .error .InsuffienctFunds := by
  decide

/-- Claim C7, amended: on an unlocked account, a deposit whose checked sum
`available + amount` overflows is rejected with `MathError` (with priority
over `TxAlreadyExists`: no freshness assumption is needed); and when the
checked sum exists, is nonnegative, the transaction id is fresh and
`newAvailable + held` overflows, the deposit is rejected with `MathError`
(when `newAvailable` is negative, `InsuffienctFunds` takes priority
instead). -/
theorem C7_deposit_math_error (σ : Txs) (c : Cid) (t : Txid) (A : Int)
    (hl : σ.lockedOf c = false) :
    (checked_add (σ.availOf c) A = none →
      (σ.process_tx (Tx.deposit c t A)).1 = .error .MathError) ∧
    (∀ v, checked_add (σ.availOf c) A = some v → 0 ≤ v → σ.txs t = none →
      checked_add v (σ.heldOf c) = none →
      (σ.process_tx (Tx.deposit c t A)).1 = .error .MathError) := by
  unfold Txs.lockedOf at hl
  constructor
  · intro hv
    unfold Txs.availOf at hv
    have hv' : checked_add (entryOrDefault σ.accounts c).2.available A = none := by
      rw [entry_snd_available]
      exact hv
    simp [Txs.process_tx, Tx.deposit, hl, Txs.process_operation, hv']
  · intro v hv hnn hfresh hheld
    unfold Txs.availOf at hv
    unfold Txs.heldOf at hheld
    have hv' : checked_add (entryOrDefault σ.accounts c).2.available A = some v := by
      rw [entry_snd_available]
      exact hv
    have hheld' : (checked_add v (entryOrDefault σ.accounts c).2.held).isSome = false := by
      rw [entry_snd_held, hheld]
      rfl
    have hnlt : ¬v < 0 := not_lt.mpr hnn
    simp [Txs.process_tx, Tx.deposit, hl, Txs.process_operation, hv', hnlt,
      hfresh, hheld']

/-- Witness for C7's amended theorem: depositing `1` when `available = Dmax`
overflows the first check; depositing `1` when `available = 0, held = Dmax`
passes it and fails the `newAvailable + held` re-check (the repository's
`test_total_overflow_when_deposit`). -/
theorem C7_witness :
    ((replay Txs.new [Tx.deposit 1 1 Dmax]).process_tx (Tx.deposit 1 2 1)).1 =
        .error .MathError ∧
      ((replay Txs.new [Tx.deposit 1 1 Dmax, Tx.dispute 1 1]).process_tx
          (Tx.deposit 1 2 1)).1 = .error .MathError :=
  ⟨(C7_deposit_math_error _ 1 2 1 (by decide)).1 (by decide),
   (C7_deposit_math_error _ 1 2 1 (by decide)).2 1 (by decide) (by decide) (by decide)
     (by decide)⟩

/-- Claim C4, counterexample: from the reachable state with
`available = -15, held = 20` (deposit 20, withdraw 15, dispute the deposit),
a deposit of `Dmax - 10` with fresh transaction id 4 is accepted
(`newAvailable = Dmax - 25 ≥ 0`, `newAvailable + held = Dmax - 5` in
domain), but the subsequent `Dispute(1, 4)` reaches the commit path where
the unchecked `held += amount` computes `20 + (Dmax - 10) = Dmax + 10`,
outside the decimal domain: the Rust code panics, so the dispute does not
succeed as the claim states. -/
theorem C4_counterexample :
    processAllOk Txs.new [Tx.deposit 1 1 20, Tx.withdrawal 1 2 15,
        Tx.dispute 1 1] = true ∧
      ((replay Txs.new [Tx.deposit 1 1 20, Tx.withdrawal 1 2 15,
          Tx.dispute 1 1]).process_tx (Tx.deposit 1 4 (Dmax - 10))).1 = .ok () ∧
      ((replay Txs.new [Tx.deposit 1 1 20, Tx.withdrawal 1 2 15,
          Tx.dispute 1 1]).process_tx
            (Tx.deposit 1 4 (Dmax - 10))).2.panicsOn (Tx.dispute 1 4) = true := by
  decide

/-- Claim C4, amended: dispute round-trip.  If a deposit of amount `A` for
client `c` with transaction id `t` has just been accepted, and the account's
`available` and `held` balances are representable decimals (always true of
real `Decimal` values) and `held + A` does not overflow the decimal domain,
then `Dispute(c, t)` followed by `Resolve(c, t)` both commit without
panicking and both succeed, the account returns to exactly its post-deposit
(pre-dispute) value — `available` and `held` included — and the stored
record's `disputed` flag is false again. -/
theorem C4_dispute_resolve_roundtrip (σ : Txs) (c : Cid) (t : Txid) (A : Int)
    (h : (σ.process_tx (Tx.deposit c t A)).1 = .ok ())
    (hav : inDomain (σ.availOf c) = true)
    (hhe : inDomain (σ.heldOf c) = true)
    (hha : inDomain (σ.heldOf c + A) = true) :
    (σ.process_tx (Tx.deposit c t A)).2.panicsOn (Tx.dispute c t) = false ∧
      ((σ.process_tx (Tx.deposit c t A)).2.process_tx (Tx.dispute c t)).1 = .ok () ∧
      ((σ.process_tx (Tx.deposit c t A)).2.process_tx (Tx.dispute c t)).2.panicsOn
          (Tx.resolve c t) = false ∧
      (((σ.process_tx (Tx.deposit c t A)).2.process_tx (Tx.dispute c t)).2.process_tx
          (Tx.resolve c t)).1 = .ok () ∧
      (((σ.process_tx (Tx.deposit c t A)).2.process_tx (Tx.dispute c t)).2.process_tx
          (Tx.resolve c t)).2.accounts c =
        (σ.process_tx (Tx.deposit c t A)).2.accounts c ∧
      (((σ.process_tx (Tx.deposit c t A)).2.process_tx (Tx.dispute c t)).2.process_tx
          (Tx.resolve c t)).2.txs t = some (Tx.deposit c t A) := by
  by_cases hl : σ.lockedOf (Tx.deposit c t A).cid = true
  · rw [locked_rejects σ _ hl] at h
    exact absurd h (by simp)
  simp only [Bool.not_eq_true] at hl
  unfold Txs.lockedOf at hl
  unfold Txs.availOf at hav
  unfold Txs.heldOf at hhe hha
  have hred : σ.process_tx (Tx.deposit c t A) =
      σ.process_operation (Tx.deposit c t A) A checked_add := by
    unfold Txs.process_tx
    simp only [Tx.deposit] at hl ⊢
    simp [hl]
  rw [hred] at h ⊢
  rcases process_operation_shape σ (Tx.deposit c t A) A checked_add with
    ⟨h1, v, hv, hneg, hfresh, hdom, htxs, hacc⟩ | ⟨e, h1, _, _⟩
  swap
  · rw [h1] at h
    exact absurd h (by simp)
  simp only [Tx.deposit] at htxs hacc hl hv
  have htx1 : (σ.process_operation (Tx.deposit c t A) A checked_add).2.txs t =
      some (Tx.deposit c t A) := by
    simp only [Tx.deposit]
    rw [htxs]
    exact upd_apply_self _ _ _
  have ha1 : (σ.process_operation (Tx.deposit c t A) A checked_add).2.accounts c =
      some { (entryOrDefault σ.accounts c).2 with available := v } := by
    simp only [Tx.deposit]
    rw [hacc]
    exact upd_apply_self _ _ _
  have hlock1 : (entryOrDefault σ.accounts c).2.locked = false := by
    rw [entry_snd_locked]
    exact hl
  have hav2 : inDomain (entryOrDefault σ.accounts c).2.available = true := by
    rw [entry_snd_available]
    exact hav
  have hhe2 : inDomain (entryOrDefault σ.accounts c).2.held = true := by
    rw [entry_snd_held]
    exact hhe
  have hha2 : inDomain ((entryOrDefault σ.accounts c).2.held + A) = true := by
    rw [entry_snd_held]
    exact hha
  have hval : v = (entryOrDefault σ.accounts c).2.available + A := checked_add_some hv
  have hvin : inDomain v = true := checked_add_inDomain hv
  have hsub : v - A = (entryOrDefault σ.accounts c).2.available := by
    rw [hval]
    ring
  have hsum : (entryOrDefault σ.accounts c).2.available + A = v := hval.symm
  simp only [Tx.deposit] at htx1 ha1
  refine ⟨?_, ?_, ?_, ?_, ?_, ?_⟩ <;>
    simp [Txs.process_tx, Txs.with_tx, Txs.panicsOn, Tx.dispute, Tx.resolve, Tx.deposit,
      ha1, hlock1, htx1, entryOrDefault_some, disputeOp, resolveOp, upd,
      sub_add_cancel, add_sub_cancel, hsub, hsum, hav2, hhe2, hha2, hvin]

/-- Witness for C4's amended theorem at a concrete input: deposit 10 on the
empty ledger (balances 0 and 0 + 10 are in domain), dispute it, resolve it;
neither commit panics, both succeed, and the account and record return to
their post-deposit state. -/
theorem C4_witness :
    (Txs.new.process_tx (Tx.deposit 1 1 10)).2.panicsOn (Tx.dispute 1 1) = false ∧
      ((Txs.new.process_tx (Tx.deposit 1 1 10)).2.process_tx (Tx.dispute 1 1)).1 = .ok () ∧
      ((Txs.new.process_tx (Tx.deposit 1 1 10)).2.process_tx (Tx.dispute 1 1)).2.panicsOn
          (Tx.resolve 1 1) = false ∧
      (((Txs.new.process_tx (Tx.deposit 1 1 10)).2.process_tx (Tx.dispute 1 1)).2.process_tx
          (Tx.resolve 1 1)).1 = .ok () ∧
      (((Txs.new.process_tx (Tx.deposit 1 1 10)).2.process_tx (Tx.dispute 1 1)).2.process_tx
          (Tx.resolve 1 1)).2.accounts 1 =
        (Txs.new.process_tx (Tx.deposit 1 1 10)).2.accounts 1 ∧
      (((Txs.new.process_tx (Tx.deposit 1 1 10)).2.process_tx (Tx.dispute 1 1)).2.process_tx
          (Tx.resolve 1 1)).2.txs 1 = some (Tx.deposit 1 1 10) :=
  C4_dispute_resolve_roundtrip Txs.new 1 1 10 (by decide) (by decide) (by decide)
    (by decide)

end Toy
